import Mathlib

/-!
Shallow embedding of `scripts/multi_instance_log_viewer.py` (the viewer core
of the deptmaster repository) and verification of the frozen claims about it.

Modelling conventions:
* File contents and paths are `List Char` (the log files are ASCII text whose
  lines end in a bare newline, so Python's universal-newline translation on
  text-mode reads is the identity here).
* The filesystem is a total map `List Char → FileState`; `FileState.ioError`
  stands for a file whose `open`/`read` raises `OSError`.
* Machine-level concerns (curses cell painting, `time.sleep`) are outside the
  embedding; rendering functions are modelled by the string they write.
* Python's `os.kill(pid, 0)` probe is modelled by an oracle
  `Nat → KillResult`. Its `OSError` failures (dead pid, permission denied)
  are caught by `_process_exists`, but a pid outside the platform's `pid_t`
  range makes `os.kill` raise `OverflowError`, which is not an `OSError`
  and is caught neither by `_process_exists` nor by `count_running`;
  functions on that path therefore return `Except Unit _`, where
  `Except.error ()` is the propagating `OverflowError`.
-/

namespace LogViewer

/-- State of one path in the modelled filesystem: absent, present but any
read attempt raises `OSError`, or present with the given content. -/
inductive FileState where
  | missing : FileState
  | ioError : FileState
  | present : List Char → FileState
deriving DecidableEq

/-- The filesystem: a total map from paths to file states. -/
def FileSys : Type := List Char → FileState

/-- `os.path.join(a, b)` for the relative second components used by the
viewer (the second argument never starts with a separator). -/
def ospathjoin (a b : List Char) : List Char :=
  if a.isEmpty then b
  else if a.getLast? = some '/' then a ++ b
  else a ++ ('/' :: b)

/-- `os.path.join(log_dir, f"instance_{i}.log")` as built at
`multi_instance_log_viewer.py` lines 107, 140 and 167. -/
def instancePath (logDir : List Char) (i : Nat) : List Char :=
  ospathjoin logDir ("instance_".data ++ (Nat.repr i).data ++ ".log".data)

/-- `read_new_lines(path, position)` (lines 44-54): absent file → empty data
and unchanged position; `OSError` → empty data and unchanged position;
otherwise seek to `position`, read to end of file, and return the data read
together with `f.tell()` (which is the end of file when `position` was within
the file, and `position` itself when the seek went past the end). -/
def readNewLines (fs : FileSys) (path : List Char) (position : Nat) :
    List Char × Nat :=
  match fs path with
  | .missing => ([], position)
  | .ioError => ([], position)
  | .present c => (c.drop position, max position c.length)

/-- `str.splitlines(keepends=True)` restricted to the ASCII line breaks
`"\r\n"`, `"\r"`, `"\n"` (the only ones that occur in the embedded text). -/
def splitKeepEndsAux : List Char → List Char → List (List Char)
  | [], acc => if acc.isEmpty then [] else [acc.reverse]
  | '\r' :: '\n' :: rest, acc =>
      (acc.reverse ++ [ '\r', '\n' ]) :: splitKeepEndsAux rest []
  | '\r' :: rest, acc => (acc.reverse ++ [ '\r' ]) :: splitKeepEndsAux rest []
  | '\n' :: rest, acc => (acc.reverse ++ [ '\n' ]) :: splitKeepEndsAux rest []
  | c :: rest, acc => splitKeepEndsAux rest (c :: acc)

/-- `content.splitlines(keepends=True)` as used at lines 114 and 145. -/
def splitKeepEnds (s : List Char) : List (List Char) :=
  splitKeepEndsAux s []

/-- Iterating a text-mode file (`for line in f`, line 30) yields maximal
chunks ending in `'\n'`, plus a final unterminated chunk if any. -/
def fileLinesAux : List Char → List Char → List (List Char)
  | [], acc => if acc.isEmpty then [] else [acc.reverse]
  | c :: rest, acc =>
      if c = '\n' then (c :: acc).reverse :: fileLinesAux rest []
      else fileLinesAux rest (c :: acc)

/-- The list of lines produced by iterating over a file's content. -/
def fileLines (c : List Char) : List (List Char) :=
  fileLinesAux c []

/-- Python `str.strip()` on ASCII text: drop whitespace from both ends. -/
def stripLine (l : List Char) : List Char :=
  ((l.dropWhile Char.isWhitespace).reverse.dropWhile Char.isWhitespace).reverse

/-- Python `str.isdigit()` on ASCII text: non-empty and all digits. -/
def isDigitToken (l : List Char) : Bool :=
  !l.isEmpty && l.all Char.isDigit

/-- `int(s)` on a string of ASCII digits. -/
def parseNat (l : List Char) : Nat :=
  l.foldl (fun a c => a * 10 + (c.toNat - 48)) 0

/-- Outcome of the `os.kill(pid, 0)` probe: success, one of the `OSError`
failures (`ProcessLookupError` for a dead pid, `PermissionError` when the
caller may not signal the process), or the `OverflowError` raised when the
pid does not fit in the platform's `pid_t` (e.g. 4294967296 on Linux) —
which is not an `OSError`. -/
inductive KillResult where
  | success : KillResult
  | noProcess : KillResult
  | permissionDenied : KillResult
  | overflow : KillResult
deriving DecidableEq

/-- `_process_exists(pid)` (lines 36-41): `True` when the probe succeeds;
the `except OSError` at line 40 turns the two `OSError` failures into
`False`; an `OverflowError` from the probe is not an `OSError` and
propagates out of the function. -/
def processExists (kill : Nat → KillResult) (pid : Nat) : Except Unit Bool :=
  match kill pid with
  | .success => Except.ok true
  | .noProcess => Except.ok false
  | .permissionDenied => Except.ok false
  | .overflow => Except.error ()

/-- `sum(1 for p in pids if _process_exists(p))` (line 31): probe the pids
left to right, counting successes; the first propagating probe error
aborts the sum. -/
def countPids (kill : Nat → KillResult) : List Nat → Except Unit Nat
  | [] => Except.ok 0
  | p :: ps =>
    match processExists kill p with
    | Except.error e => Except.error e
    | Except.ok b =>
      match countPids kill ps with
      | Except.error e => Except.error e
      | Except.ok n => Except.ok (if b then n + 1 else n)

/-- The body of `count_running` once the file content is in hand
(lines 30-31): keep the lines whose stripped form is all digits, parse
them, and count those whose process exists. -/
def countFromLines (kill : Nat → KillResult) (lns : List (List Char)) :
    Except Unit Nat :=
  let pids := (lns.filter fun l => isDigitToken (stripLine l)).map
    fun l => parseNat (stripLine l)
  countPids kill pids

/-- `count_running(pids_file)` (lines 25-33): empty path or absent file → 0;
`OSError` while reading → 0; otherwise count the listed pids that exist.
The `except (ValueError, OSError)` at line 32 does not catch an
`OverflowError` raised by the probe inside the `sum`, so that error
propagates to the caller. -/
def countRunning (fs : FileSys) (pidsFile : List Char)
    (kill : Nat → KillResult) : Except Unit Nat :=
  if pidsFile.isEmpty then Except.ok 0
  else
    match fs pidsFile with
    | .present c => countFromLines kill (fileLines c)
    | .missing => Except.ok 0
    | .ioError => Except.ok 0

/-- `STATUS_BAR_FORMAT.format(...)` (lines 19-22): the status-bar template
with the five placeholders substituted. -/
def statusBarFormat (running total stopped watching maxKey : Int) : String :=
  " [ Instances: " ++ toString running ++ "/" ++ toString total ++
  " running, " ++ toString stopped ++
  " stopped | Watching: Instance " ++ toString watching ++
  " | Keys: 1-" ++ toString maxKey ++ " switch, q quit ] "

/-- The characters `draw_status_bar` (lines 73-88) writes at row 0:
the formatted line with `running = count_running(pids_file)` and
`stopped = count - running`, clipped by the slice `line[: width - 1]`; a
propagating error from `count_running` propagates out of
`draw_status_bar` as well. -/
def drawStatusBarLine (fs : FileSys) (pidsFile : List Char)
    (kill : Nat → KillResult) (count : Int) (current : Nat) (width : Nat) :
    Except Unit (List Char) :=
  match countRunning fs pidsFile kill with
  | Except.error e => Except.error e
  | Except.ok running =>
    Except.ok ((statusBarFormat (running : Int) count
      (count - (running : Int)) (Int.ofNat current) count).data.take
      (width - 1))

/-- The visible-line selection of `draw_log` (line 94):
`buf[-log_height:] if len(buf) > log_height else buf`, with Python's slice
semantics (for `h = 0` the slice `buf[-0:]` is the whole list). -/
def visibleLines (buf : List (List Char)) (h : Nat) : List (List Char) :=
  if h < buf.length then
    (if h = 0 then buf else buf.drop (buf.length - h))
  else buf

/-- The mutable state of the `run_curses` loop: the watched index, the
per-instance buffers and file positions (total maps defaulting to `[]` and
`0`, matching `instance_buffers` initialisation and
`file_positions.get(current, 0)`), and `status_redraw_counter`. -/
structure ViewerState where
  current : Nat
  buffers : Nat → List (List Char)
  positions : Nat → Nat
  counter : Nat

/-- `load_entire_log(instance)` (lines 106-116): absent file → no change;
`OSError` → no change; otherwise set the instance's position to the content
length and its buffer to the split lines. -/
def loadEntireLog (logDir : List Char) (fs : FileSys) (st : ViewerState)
    (inst : Nat) : ViewerState :=
  match fs (instancePath logDir inst) with
  | .present c =>
      { st with
        positions := fun j => if j = inst then c.length else st.positions j
        buffers := fun j => if j = inst then splitKeepEnds c
          else st.buffers j }
  | .missing => st
  | .ioError => st

/-- The switch branch of the loop (lines 131-138): set `current`, hydrate
only when the target buffer is empty, reset the redraw counter. -/
def switchTo (logDir : List Char) (fs : FileSys) (st : ViewerState)
    (idx : Nat) : ViewerState :=
  let st1 : ViewerState := { st with current := idx, counter := 0 }
  if (st.buffers idx).isEmpty then loadEntireLog logDir fs st1 idx else st1

/-- The content-refresh tail of a loop iteration (lines 139-151): read new
bytes for the current instance, store the new position, append the split
lines when data arrived, and step the status-redraw counter (reset at 40). -/
def contentRefresh (logDir : List Char) (fs : FileSys) (st : ViewerState) :
    ViewerState :=
  let path := instancePath logDir st.current
  let pos := st.positions st.current
  let r := readNewLines fs path pos
  let positions1 := fun j => if j = st.current then r.2 else st.positions j
  let buffers1 :=
    if r.1.isEmpty then st.buffers
    else fun j =>
      if j = st.current then st.buffers j ++ splitKeepEnds r.1
      else st.buffers j
  let counter1 := st.counter + 1
  { st with
    positions := positions1
    buffers := buffers1
    counter := if 40 ≤ counter1 then 0 else counter1 }

/-- One iteration of the `run_curses` loop (lines 122-151) on the key code
`ch` returned by `getch` (`-1` when no key is available): `Sum.inl code` when
the function returns, `Sum.inr` the next state otherwise. Key `113`/`81`/`4`
(`q`, `Q`, Ctrl-D) returns 0; a digit `1`..`9` in range and different from
`current` switches and continues; everything else falls through to the
content refresh. -/
def loopStep (logDir : List Char) (count : Nat) (fs : FileSys)
    (st : ViewerState) (ch : Int) : Sum Int ViewerState :=
  if ch = 113 ∨ ch = 81 ∨ ch = 4 then Sum.inl 0
  else if 49 ≤ ch ∧ ch ≤ 57 then
    if 1 ≤ (ch - 48).toNat ∧ (ch - 48).toNat ≤ count ∧
        (ch - 48).toNat ≠ st.current then
      Sum.inr (switchTo logDir fs st ((ch - 48).toNat))
    else Sum.inr (contentRefresh logDir fs st)
  else Sum.inr (contentRefresh logDir fs st)

/-- The mutable state of the `run_fallback` polling loop (lines 157-158):
`current` (assigned 1 once and never reassigned) and the file positions. -/
structure FallbackState where
  fcurrent : Nat
  fpositions : Nat → Nat

/-- One iteration of the `while True` body of `run_fallback`
(lines 166-174): read new bytes for instance `fcurrent`, store the new
position, write any data to stdout (no state effect), sleep. The body has no
`return`/`break`, so the step always yields a next state. -/
def fallbackStep (logDir : List Char) (fs : FileSys) (st : FallbackState) :
    Sum Int FallbackState :=
  let path := instancePath logDir st.fcurrent
  let pos := st.fpositions st.fcurrent
  let r := readNewLines fs path pos
  Sum.inr { st with
    fpositions := fun j => if j = st.fcurrent then r.2 else st.fpositions j }

/-- Run `n` iterations of the fallback loop, stopping early on a return. -/
def fallbackRun (logDir : List Char) (fs : FileSys) :
    Nat → FallbackState → Sum Int FallbackState
  | 0, st => Sum.inr st
  | n + 1, st =>
    match fallbackStep logDir fs st with
    | Sum.inl code => Sum.inl code
    | Sum.inr st1 => fallbackRun logDir fs n st1

/-- Where `main` (lines 177-193) hands control after argument validation:
an immediate exit code, the interactive loop, or the fallback loop. -/
inductive MainOutcome where
  | exit : Int → MainOutcome
  | interactiveLoop : MainOutcome
  | fallbackLoop : MainOutcome
deriving DecidableEq

/-- The dispatch logic of `main` (lines 184-193) together with the screen
check at the top of `run_curses` (lines 61-63): `count` outside 1..9 → exit
1; missing log dir → exit 1; with curses available and stdout a tty, a
screen of fewer than 3 rows → exit 1, otherwise the interactive loop is
entered; without curses or a tty the fallback loop is entered. -/
def mainDispatch (count : Int) (logDirIsDir cursesAvailable stdoutIsTty : Bool)
    (height : Nat) : MainOutcome :=
  if count < 1 ∨ 9 < count then .exit 1
  else if logDirIsDir = false then .exit 1
  else if cursesAvailable && stdoutIsTty then
    if height < 3 then .exit 1 else .interactiveLoop
  else .fallbackLoop


/-- The exit-code-1 condition exactly as the spec states it (for comparison
with `mainDispatch`): `count` outside 1..9, or the log directory missing, or
— in fallback mode only — no content loop can be established. -/
def specClaimedExitOneCondition (count : Int)
    (logDirIsDir cursesAvailable stdoutIsTty noContentLoop : Bool) : Prop :=
  (count < 1 ∨ 9 < count) ∨ logDirIsDir = false ∨
    ((cursesAvailable && stdoutIsTty) = false ∧ noContentLoop = true)

/-- The initial `run_curses` state (lines 66-71): watching instance 1, all
buffers empty, no stored positions, redraw counter 0. -/
def initialViewerState : ViewerState :=
  { current := 1, buffers := fun _ => [], positions := fun _ => 0,
    counter := 0 }

/-- A filesystem with no files, used to instantiate general theorems. -/
def emptyFS : FileSys := fun _ => FileState.missing

section Helpers

lemma contentRefresh_current (logDir : List Char) (fs : FileSys)
    (st : ViewerState) : (contentRefresh logDir fs st).current = st.current :=
  rfl

lemma contentRefresh_positions (logDir : List Char) (fs : FileSys)
    (st : ViewerState) (j : Nat) :
    (contentRefresh logDir fs st).positions j =
      if j = st.current then
        (readNewLines fs (instancePath logDir st.current)
          (st.positions st.current)).2
      else st.positions j :=
  rfl

lemma contentRefresh_buffers (logDir : List Char) (fs : FileSys)
    (st : ViewerState) :
    (contentRefresh logDir fs st).buffers =
      if (readNewLines fs (instancePath logDir st.current)
            (st.positions st.current)).1.isEmpty then st.buffers
      else fun j =>
        if j = st.current then
          st.buffers j ++ splitKeepEnds
            (readNewLines fs (instancePath logDir st.current)
              (st.positions st.current)).1
        else st.buffers j :=
  rfl

lemma loadEntireLog_current (logDir : List Char) (fs : FileSys)
    (st : ViewerState) (inst : Nat) :
    (loadEntireLog logDir fs st inst).current = st.current := by
  unfold loadEntireLog
  cases fs (instancePath logDir inst) <;> rfl

lemma loadEntireLog_buffers_ne (logDir : List Char) (fs : FileSys)
    (st : ViewerState) (inst j : Nat) (h : j ≠ inst) :
    (loadEntireLog logDir fs st inst).buffers j = st.buffers j := by
  unfold loadEntireLog
  cases fs (instancePath logDir inst) <;> simp [h]

lemma switchTo_current (logDir : List Char) (fs : FileSys) (st : ViewerState)
    (idx : Nat) : (switchTo logDir fs st idx).current = idx := by
  unfold switchTo
  by_cases h : (st.buffers idx).isEmpty <;>
    simp [h, loadEntireLog_current]

lemma switchTo_buffers_ne (logDir : List Char) (fs : FileSys)
    (st : ViewerState) (idx j : Nat) (h : j ≠ idx) :
    (switchTo logDir fs st idx).buffers j = st.buffers j := by
  unfold switchTo
  by_cases he : (st.buffers idx).isEmpty <;>
    simp [he, loadEntireLog_buffers_ne, h]

lemma switchTo_buffers_of_nonempty (logDir : List Char) (fs : FileSys)
    (st : ViewerState) (idx : Nat) (h : (st.buffers idx).isEmpty = false) :
    (switchTo logDir fs st idx).buffers = st.buffers := by
  unfold switchTo
  simp [h]

lemma fallbackRun_inr (logDir : List Char) (fs : FileSys) :
    ∀ (n : Nat) (st : FallbackState),
      ∃ st2, fallbackRun logDir fs n st = Sum.inr st2 := by
  intro n
  induction n with
  | zero => exact fun st => ⟨st, rfl⟩
  | succ k ih =>
    intro st
    simpa [fallbackRun, fallbackStep] using ih _

lemma loopStep_inl_eq_zero (logDir : List Char) (count : Nat) (fs : FileSys)
    (st : ViewerState) (ch : Int) (code : Int)
    (h : loopStep logDir count fs st ch = Sum.inl code) : code = 0 := by
  unfold loopStep at h
  split_ifs at h
  all_goals simp_all

end Helpers

/-- Claim C6: `read_new_lines` returns empty data and the unchanged offset
when the file is absent and when any I/O error occurs (it never propagates an
exception: the embedding is a total function); otherwise it returns the
file's bytes from the stored offset to end-of-file together with the
position the read ended at, which is end-of-file whenever the stored offset
lies within the file. -/
theorem readNewContract (fs : FileSys) (path : List Char) (pos : Nat) :
    (fs path = FileState.missing → readNewLines fs path pos = ([], pos)) ∧
    (fs path = FileState.ioError → readNewLines fs path pos = ([], pos)) ∧
    (∀ c, fs path = FileState.present c →
      readNewLines fs path pos = (c.drop pos, max pos c.length)) ∧
    (∀ c, fs path = FileState.present c → pos ≤ c.length →
      readNewLines fs path pos = (c.drop pos, c.length)) := by
  refine ⟨fun h => by simp [readNewLines, h],
    fun h => by simp [readNewLines, h],
    fun c h => by simp [readNewLines, h],
    fun c h hle => ?_⟩
  simp [readNewLines, h, Nat.max_eq_right hle]

/-- Witness for C6 at a concrete filesystem: one absent path, one erroring
path, one file `"ab"` read from offset 1. -/
theorem readNewContract_witness :
    readNewLines emptyFS "gone".data 7 = ([], 7) ∧
    readNewLines (fun _ => FileState.ioError) "bad".data 7 = ([], 7) ∧
    readNewLines (fun _ => FileState.present "ab".data) "f".data 1 =
      ("b".data, 2) := by
  refine ⟨(readNewContract emptyFS "gone".data 7).1 rfl,
    (readNewContract (fun _ => FileState.ioError) "bad".data 7).2.1 rfl,
    ?_⟩
  have h := (readNewContract (fun _ => FileState.present "ab".data)
    "f".data 1).2.2.2 "ab".data rfl (by decide)
  simpa using h

/-- A pid file whose single line is the ASCII pid 4294967296, a value that
does not fit in the platform's `pid_t`. -/
def fsOverflowPids : FileSys := fun p =>
  if p = "pids".data then FileState.present "4294967296\n".data
  else FileState.missing

/-- The probe for that file: `os.kill(4294967296, 0)` raises
`OverflowError`; every other pid simply does not exist. -/
def killOverflow : Nat → KillResult := fun p =>
  if p = 4294967296 then KillResult.overflow else KillResult.noProcess

/-- Claim C7 is refuted by the code at this input: a pids file whose one
line is the ASCII pid 4294967296 makes the `os.kill` probe raise
`OverflowError`, which is not an `OSError`, so it escapes the
`except OSError` of `_process_exists` (line 40) and the
`except (ValueError, OSError)` of `count_running` (line 32): the function
raises instead of counting the pid as not running. The clear intent of the
code — each `except` clause tries to make liveness best-effort — matches
the claim, so the code, not the claim, is wrong. -/
theorem countRunningPropagatesOverflow :
    processExists killOverflow 4294967296 = Except.error () ∧
    countRunning fsOverflowPids "pids".data killOverflow =
      Except.error () :=
  ⟨rfl, rfl⟩

/-- Claim C4: from any state of the running loop, whatever the watched
source, key code 113 (`q`), 81 (`Q`) or 4 (the interrupt control character)
makes that very iteration return 0 — the loop leaves RUNNING and the
interactive viewer's exit status is 0. -/
theorem quitKeysReturnZero (logDir : List Char) (count : Nat) (fs : FileSys)
    (st : ViewerState) (ch : Int) (h : ch = 113 ∨ ch = 81 ∨ ch = 4) :
    loopStep logDir count fs st ch = Sum.inl 0 := by
  unfold loopStep
  rw [if_pos h]

/-- Witness for C4: pressing `q` in the initial state quits with status 0. -/
theorem quitKeysReturnZero_witness :
    loopStep "logs".data 3 emptyFS initialViewerState 113 = Sum.inl 0 :=
  quitKeysReturnZero "logs".data 3 emptyFS initialViewerState 113
    (Or.inl rfl)

/-- Claim C5: a digit key whose value exceeds `total` is a no-op — the
iteration is identical to one where no key was available, `current` is
unchanged, the buffer of every other source is unchanged, and when the
watched file has no new bytes every buffer is unchanged. -/
theorem outOfRangeDigitNoOp (logDir : List Char) (count : Nat) (fs : FileSys)
    (st : ViewerState) (ch : Int) (hlo : 49 ≤ ch) (hhi : ch ≤ 57)
    (hgt : count < (ch - 48).toNat) :
    loopStep logDir count fs st ch = Sum.inr (contentRefresh logDir fs st) ∧
    loopStep logDir count fs st ch = loopStep logDir count fs st (-1) ∧
    (contentRefresh logDir fs st).current = st.current ∧
    (∀ i, i ≠ st.current →
      (contentRefresh logDir fs st).buffers i = st.buffers i) ∧
    ((readNewLines fs (instancePath logDir st.current)
        (st.positions st.current)).1 = [] →
      ∀ i, (contentRefresh logDir fs st).buffers i = st.buffers i) := by
  have hq : ¬(ch = 113 ∨ ch = 81 ∨ ch = 4) := by omega
  have hrange : ¬(1 ≤ (ch - 48).toNat ∧ (ch - 48).toNat ≤ count ∧
      (ch - 48).toNat ≠ st.current) := by omega
  have hstep : loopStep logDir count fs st ch =
      Sum.inr (contentRefresh logDir fs st) := by
    unfold loopStep
    rw [if_neg hq, if_pos ⟨hlo, hhi⟩, if_neg hrange]
  refine ⟨hstep, ?_, rfl, ?_, ?_⟩
  · rw [hstep]
    unfold loopStep
    rw [if_neg (by decide), if_neg (by decide)]
  · intro i hi
    rw [contentRefresh_buffers]
    split
    · rfl
    · simp [hi]
  · intro hempty i
    rw [contentRefresh_buffers, if_pos (by simp [hempty])]

/-- Witness for C5: pressing `5` with `total = 3` behaves exactly like no
key press and changes nothing observable in the state. -/
theorem outOfRangeDigitNoOp_witness :
    loopStep "logs".data 3 emptyFS initialViewerState 53 =
      Sum.inr (contentRefresh "logs".data emptyFS initialViewerState) ∧
    loopStep "logs".data 3 emptyFS initialViewerState 53 =
      loopStep "logs".data 3 emptyFS initialViewerState (-1) ∧
    (contentRefresh "logs".data emptyFS initialViewerState).current =
      initialViewerState.current ∧
    (contentRefresh "logs".data emptyFS initialViewerState).buffers 2 =
      initialViewerState.buffers 2 ∧
    (contentRefresh "logs".data emptyFS initialViewerState).buffers 1 =
      initialViewerState.buffers 1 := by
  obtain ⟨h1, h2, h3, h4, h5⟩ := outOfRangeDigitNoOp "logs".data 3 emptyFS
    initialViewerState 53 (by decide) (by decide) (by decide)
  exact ⟨h1, h2, h3, h4 2 (by decide), h5 (by decide) 1⟩

/-- Claim C9: the visible-line selection of `draw_log` is a pure function of
the buffer that returns a suffix: with a positive viewport height `h` it
keeps `min (len buf) h` lines, the whole buffer when it fits, and exactly
the last `h` lines in original order when the buffer is longer. -/
theorem viewportBound (buf : List (List Char)) (h : Nat) (hpos : 0 < h) :
    (visibleLines buf h).length = min buf.length h ∧
    List.IsSuffix (visibleLines buf h) buf ∧
    (buf.length ≤ h → visibleLines buf h = buf) ∧
    (h < buf.length →
      visibleLines buf h = buf.drop (buf.length - h)) := by
  by_cases hlt : h < buf.length
  · have hne : h ≠ 0 := Nat.pos_iff_ne_zero.mp hpos
    have hv : visibleLines buf h = buf.drop (buf.length - h) := by
      simp [visibleLines, hlt, hne]
    refine ⟨?_, ?_, fun hle => absurd hlt (by omega), fun _ => hv⟩
    · rw [hv, List.length_drop]
      omega
    · rw [hv]
      exact List.drop_suffix _ _
  · have hv : visibleLines buf h = buf := by simp [visibleLines, hlt]
    refine ⟨?_, by rw [hv], fun _ => hv, fun hgt => absurd hgt hlt⟩
    rw [hv]
    omega

/-- Witness for C9: a three-line buffer viewed at height 2 shows the last
two lines. -/
theorem viewportBound_witness :
    (visibleLines ["a\n".data, "b\n".data, "c\n".data] 2).length = 2 ∧
    List.IsSuffix (visibleLines ["a\n".data, "b\n".data, "c\n".data] 2)
      ["a\n".data, "b\n".data, "c\n".data] ∧
    visibleLines ["a\n".data, "b\n".data, "c\n".data] 2 =
      ["b\n".data, "c\n".data] := by
  obtain ⟨h1, h2, _, h4⟩ :=
    viewportBound ["a\n".data, "b\n".data, "c\n".data] 2 (by decide)
  exact ⟨h1, h2, (h4 (by decide)).trans (by decide)⟩

/-- Claim C10: the fallback polling loop has no exit condition — after any
number of iterations from any state it is still running; it never produces a
return value on its own. -/
theorem fallbackNeverTerminates (logDir : List Char) (fs : FileSys)
    (n : Nat) (st : FallbackState) :
    ∃ st2, fallbackRun logDir fs n st = Sum.inr st2 :=
  fallbackRun_inr logDir fs n st


/-- Counterexample to claim C8 as stated: with `count = 3`, an existing log
directory, curses available and stdout a tty, a 2-row screen makes the
program exit with code 1 (the `height < 3` check in `run_curses`), yet none
of the claim's three conditions holds — in particular the claim allows an
exit-1 only in fallback mode beyond the two configuration errors, and this
run is interactive. -/
theorem exitCodeClaimFalse :
    mainDispatch 3 true true true 2 = MainOutcome.exit 1 ∧
    ¬ specClaimedExitOneCondition 3 true true true false ∧
    ¬ specClaimedExitOneCondition 3 true true true true := by
  refine ⟨by decide, ?_, ?_⟩
  · unfold specClaimedExitOneCondition
    decide
  · unfold specClaimedExitOneCondition
    decide

/-- Claim C8, amended: exit code 1 arises exactly when `count` is outside
1..9, or the log directory does not exist, or — in interactive mode only —
the screen has fewer than 3 rows; the interactive loop can only ever return
0 (in particular on the quit key), and the fallback loop never returns at
all. -/
theorem exitCodeContractAmended (count : Int)
    (dirOk cursesAvail tty : Bool) (height : Nat) :
    (mainDispatch count dirOk cursesAvail tty height = MainOutcome.exit 1 ↔
      (count < 1 ∨ 9 < count) ∨ dirOk = false ∨
        (cursesAvail = true ∧ tty = true ∧ height < 3)) ∧
    (∀ (logDir : List Char) (cnt : Nat) (fs : FileSys) (st : ViewerState)
        (ch code : Int),
      loopStep logDir cnt fs st ch = Sum.inl code → code = 0) ∧
    (∀ (logDir : List Char) (fs : FileSys) (n : Nat) (st : FallbackState),
      ∃ st2, fallbackRun logDir fs n st = Sum.inr st2) ∧
    (∀ (logDir : List Char) (cnt : Nat) (fs : FileSys) (st : ViewerState),
      loopStep logDir cnt fs st 113 = Sum.inl 0) := by
  refine ⟨?_, loopStep_inl_eq_zero, fallbackRun_inr, ?_⟩
  · unfold mainDispatch
    split_ifs with h1 h2 h3 h4 <;> simp_all
  · intro logDir cnt fs st
    unfold loopStep
    rw [if_pos (Or.inl rfl)]

/-- Witness for the amended C8 at concrete inputs: a 2-row interactive run
exits 1, five fallback iterations are still running, and `q` quits with 0. -/
theorem exitCodeContractAmended_witness :
    mainDispatch 3 true true true 2 = MainOutcome.exit 1 ∧
    (∃ st2, fallbackRun "logs".data emptyFS 5 ⟨1, fun _ => 0⟩ =
      Sum.inr st2) ∧
    loopStep "logs".data 3 emptyFS initialViewerState 113 = Sum.inl 0 := by
  have h := exitCodeContractAmended 3 true true true 2
  exact ⟨h.1.mpr (Or.inr (Or.inr ⟨rfl, rfl, by decide⟩)),
    h.2.2.1 "logs".data emptyFS 5 ⟨1, fun _ => 0⟩,
    h.2.2.2 "logs".data 3 emptyFS initialViewerState⟩

/-- The filesystem used to instantiate the incremental-read theorem: a
single log file for instance 1 containing one line. -/
def fsHello : FileSys := fun p =>
  if p = "logs/instance_1.log".data then FileState.present "hello\n".data
  else FileState.missing

/-- Claim C1: when the watched source's stored offset covers exactly the old
content `s` and `"hello\n"` has been appended to the file, one no-key loop
iteration performs the content refresh, appends `"hello\n"` as one new
trailing buffer line, and advances the stored offset by exactly 6 bytes;
a further no-key iteration with no new writes changes no buffer and no
offset. -/
theorem exactlyOnceRead (logDir : List Char) (count : Nat) (fs : FileSys)
    (st : ViewerState) (s : List Char)
    (_hbuf : st.buffers st.current = splitKeepEnds s)
    (hpos : st.positions st.current = s.length)
    (hfile : fs (instancePath logDir st.current) =
      FileState.present (s ++ "hello\n".data)) :
    loopStep logDir count fs st (-1) =
      Sum.inr (contentRefresh logDir fs st) ∧
    (contentRefresh logDir fs st).buffers st.current =
      st.buffers st.current ++ ["hello\n".data] ∧
    (contentRefresh logDir fs st).positions st.current =
      st.positions st.current + 6 ∧
    (contentRefresh logDir fs st).current = st.current ∧
    loopStep logDir count fs (contentRefresh logDir fs st) (-1) =
      Sum.inr (contentRefresh logDir fs (contentRefresh logDir fs st)) ∧
    (∀ i, (contentRefresh logDir fs
        (contentRefresh logDir fs st)).buffers i =
      (contentRefresh logDir fs st).buffers i) ∧
    (∀ i, (contentRefresh logDir fs
        (contentRefresh logDir fs st)).positions i =
      (contentRefresh logDir fs st).positions i) := by
  have hr : readNewLines fs (instancePath logDir st.current)
      (st.positions st.current) = ("hello\n".data, s.length + 6) := by
    rw [hpos]
    simp only [readNewLines, hfile, Prod.mk.injEq]
    refine ⟨by simp, ?_⟩
    simp only [List.length_append]
    have h6 : ("hello\n".data).length = 6 := by decide
    rw [h6]
    omega
  have hsplit : splitKeepEnds "hello\n".data = ["hello\n".data] := by decide
  have hb1 : (contentRefresh logDir fs st).buffers st.current =
      st.buffers st.current ++ ["hello\n".data] := by
    rw [contentRefresh_buffers, hr]
    simp [hsplit]
  have hp1 : (contentRefresh logDir fs st).positions st.current =
      st.positions st.current + 6 := by
    rw [contentRefresh_positions, hr, hpos]
    simp
  have hcur1 : (contentRefresh logDir fs st).current = st.current := rfl
  have hstep : ∀ st0 : ViewerState, loopStep logDir count fs st0 (-1) =
      Sum.inr (contentRefresh logDir fs st0) := by
    intro st0
    unfold loopStep
    rw [if_neg (by decide), if_neg (by decide)]
  have hr2 : readNewLines fs
      (instancePath logDir (contentRefresh logDir fs st).current)
      ((contentRefresh logDir fs st).positions
        (contentRefresh logDir fs st).current) = ([], s.length + 6) := by
    rw [hcur1, hp1, hpos]
    simp only [readNewLines, hfile, Prod.mk.injEq]
    have hlen : (s ++ "hello\n".data).length = s.length + 6 := by
      have h6 : ("hello\n".data).length = 6 := by decide
      simp only [List.length_append, h6]
    refine ⟨?_, ?_⟩
    · rw [show s.length + 6 = (s ++ "hello\n".data).length from hlen.symm]
      exact List.drop_length _
    · rw [hlen]
      omega
  refine ⟨hstep st, hb1, hp1, hcur1, hstep _, ?_, ?_⟩
  · intro i
    rw [contentRefresh_buffers, hr2]
    simp
  · intro i
    rw [contentRefresh_positions, hr2]
    by_cases hi : i = (contentRefresh logDir fs st).current
    · rw [if_pos hi, hi, hcur1, hp1, hpos]
    · rw [if_neg hi]

/-- Witness for C1: starting from the initial state with an empty prior file
content, the refresh picks up `"hello\n"` once and is then idempotent. -/
theorem exactlyOnceRead_witness :
    (contentRefresh "logs".data fsHello initialViewerState).buffers 1 =
      initialViewerState.buffers 1 ++ ["hello\n".data] ∧
    (contentRefresh "logs".data fsHello initialViewerState).positions 1 =
      initialViewerState.positions 1 + 6 ∧
    (contentRefresh "logs".data fsHello
        (contentRefresh "logs".data fsHello initialViewerState)).buffers 1 =
      (contentRefresh "logs".data fsHello initialViewerState).buffers 1 ∧
    (contentRefresh "logs".data fsHello
        (contentRefresh "logs".data fsHello
          initialViewerState)).positions 1 =
      (contentRefresh "logs".data fsHello initialViewerState).positions 1 := by
  obtain ⟨-, hb, hp, -, -, hb2, hp2⟩ := exactlyOnceRead "logs".data 1 fsHello
    initialViewerState [] (by decide) (by decide) (by decide)
  exact ⟨hb, hp, hb2 1, hp2 1⟩


/-- Claim C2: watching source 2 whose buffer holds the line `"a\n"`,
pressing `3` switches away and pressing `2` switches back; source 2's
buffer still holds `"a\n"` exactly once — no re-hydration duplicate (the
non-empty buffer suppresses `load_entire_log`) and no loss. -/
theorem switchPreservesBuffer (logDir : List Char) (count : Nat)
    (fs : FileSys) (st : ViewerState) (hcur : st.current = 2)
    (hbuf : st.buffers 2 = ["a\n".data]) (hcount : 3 ≤ count) :
    loopStep logDir count fs st 51 = Sum.inr (switchTo logDir fs st 3) ∧
    loopStep logDir count fs (switchTo logDir fs st 3) 50 =
      Sum.inr (switchTo logDir fs (switchTo logDir fs st 3) 2) ∧
    (switchTo logDir fs (switchTo logDir fs st 3) 2).buffers 2 =
      ["a\n".data] ∧
    List.count "a\n".data
      ((switchTo logDir fs (switchTo logDir fs st 3) 2).buffers 2) = 1 ∧
    (switchTo logDir fs (switchTo logDir fs st 3) 2).current = 2 := by
  have h3 : ((51 : Int) - 48).toNat = 3 := by decide
  have h2 : ((50 : Int) - 48).toNat = 2 := by decide
  have hstep1 : loopStep logDir count fs st 51 =
      Sum.inr (switchTo logDir fs st 3) := by
    unfold loopStep
    rw [if_neg (by decide), if_pos (by decide),
      if_pos ⟨by omega, by omega, by rw [h3, hcur]; decide⟩, h3]
  have hb1 : (switchTo logDir fs st 3).buffers 2 = ["a\n".data] := by
    rw [switchTo_buffers_ne logDir fs st 3 2 (by decide), hbuf]
  have hc1 : (switchTo logDir fs st 3).current = 3 := switchTo_current _ _ _ _
  have hstep2 : loopStep logDir count fs (switchTo logDir fs st 3) 50 =
      Sum.inr (switchTo logDir fs (switchTo logDir fs st 3) 2) := by
    unfold loopStep
    rw [if_neg (by decide), if_pos (by decide),
      if_pos ⟨by omega, by omega, by rw [h2, hc1]; decide⟩, h2]
  have hne : ((switchTo logDir fs st 3).buffers 2).isEmpty = false := by
    rw [hb1]
    decide
  have hb2 : (switchTo logDir fs (switchTo logDir fs st 3) 2).buffers =
      (switchTo logDir fs st 3).buffers :=
    switchTo_buffers_of_nonempty _ _ _ _ hne
  refine ⟨hstep1, hstep2, ?_, ?_, switchTo_current _ _ _ _⟩
  · rw [hb2, hb1]
  · rw [hb2, hb1]
    simp

/-- Witness for C2: a concrete state watching source 2 with buffer
`["a\n"]`; the round trip through source 3 keeps it intact. -/
theorem switchPreservesBuffer_witness :
    loopStep "logs".data 3 emptyFS
        ⟨2, fun i => if i = 2 then ["a\n".data] else [], fun _ => 0, 0⟩ 51 =
      Sum.inr (switchTo "logs".data emptyFS
        ⟨2, fun i => if i = 2 then ["a\n".data] else [], fun _ => 0, 0⟩ 3) ∧
    (switchTo "logs".data emptyFS
      (switchTo "logs".data emptyFS
        ⟨2, fun i => if i = 2 then ["a\n".data] else [], fun _ => 0, 0⟩ 3)
      2).buffers 2 = ["a\n".data] ∧
    List.count "a\n".data
      ((switchTo "logs".data emptyFS
        (switchTo "logs".data emptyFS
          ⟨2, fun i => if i = 2 then ["a\n".data] else [], fun _ => 0, 0⟩ 3)
        2).buffers 2) = 1 ∧
    (switchTo "logs".data emptyFS
      (switchTo "logs".data emptyFS
        ⟨2, fun i => if i = 2 then ["a\n".data] else [], fun _ => 0, 0⟩ 3)
      2).current = 2 := by
  obtain ⟨h1, -, h3, h4, h5⟩ := switchPreservesBuffer "logs".data 3 emptyFS
    ⟨2, fun i => if i = 2 then ["a\n".data] else [], fun _ => 0, 0⟩
    rfl (by decide) (by decide)
  exact ⟨h1, h3, h4, h5⟩


/-- The pid file used to instantiate the status-bar theorem: pids 100 and
200 probed alive, 300 dead. -/
def fsPids : FileSys := fun p =>
  if p = "pids".data then FileState.present "100\n200\n300\n".data
  else FileState.missing

/-- The probe oracle matching `fsPids`: 100 and 200 exist, everything else
does not. -/
def killOracle : Nat → KillResult := fun p =>
  if p = 100 then KillResult.success
  else if p = 200 then KillResult.success
  else KillResult.noProcess

/-- Claim C3: `draw_status_bar` writes at row 0 exactly the template with
`running`, `total`, `stopped`, the watched index and the maximum key
substituted, clipped to fit the screen width (the slice keeps `width - 1`
characters); with a pid file naming two live processes and one dead one,
`total = 3` and a wide enough screen, the rendered line is exactly
`" [ Instances: 2/3 running, 1 stopped | Watching: Instance 1 | Keys: 1-3
switch, q quit ] "`. -/
theorem statusBarExact (fs : FileSys) (pf : List Char)
    (kill : Nat → KillResult) (width : Nat) (hpf : pf ≠ [])
    (hc : fs pf = FileState.present "100\n200\n300\n".data)
    (h1 : kill 100 = KillResult.success)
    (h2 : kill 200 = KillResult.success)
    (h3 : kill 300 = KillResult.noProcess)
    (hw : 90 ≤ width) :
    (∀ (fs2 : FileSys) (pf2 : List Char) (kill2 : Nat → KillResult)
        (count2 : Int) (cur2 width2 : Nat) (running : Nat),
      countRunning fs2 pf2 kill2 = Except.ok running →
      drawStatusBarLine fs2 pf2 kill2 count2 cur2 width2 =
        Except.ok ((statusBarFormat (running : Int) count2
          (count2 - (running : Int)) (Int.ofNat cur2)
          count2).data.take (width2 - 1))) ∧
    countRunning fs pf kill = Except.ok 2 ∧
    drawStatusBarLine fs pf kill 3 1 width = Except.ok
      (" [ Instances: 2/3 running, 1 stopped | Watching: Instance 1 " ++
        "| Keys: 1-3 switch, q quit ] ").data := by
  have hgen : ∀ (fs2 : FileSys) (pf2 : List Char) (kill2 : Nat → KillResult)
      (count2 : Int) (cur2 width2 : Nat) (running : Nat),
      countRunning fs2 pf2 kill2 = Except.ok running →
      drawStatusBarLine fs2 pf2 kill2 count2 cur2 width2 =
        Except.ok ((statusBarFormat (running : Int) count2
          (count2 - (running : Int)) (Int.ofNat cur2)
          count2).data.take (width2 - 1)) := by
    intro fs2 pf2 kill2 count2 cur2 width2 running h
    unfold drawStatusBarLine
    rw [h]
  have hcr : countRunning fs pf kill = Except.ok 2 := by
    have hstep : countRunning fs pf kill =
        countFromLines kill (fileLines "100\n200\n300\n".data) := by
      simp [countRunning, hc, List.isEmpty_iff, hpf]
    have hfl : fileLines "100\n200\n300\n".data =
        ["100\n".data, "200\n".data, "300\n".data] := by decide
    have hpids : ((["100\n".data, "200\n".data, "300\n".data].filter
        fun l => isDigitToken (stripLine l)).map
          fun l => parseNat (stripLine l)) = [100, 200, 300] := by decide
    have e1 : processExists kill 100 = Except.ok true := by
      unfold processExists
      rw [h1]
    have e2 : processExists kill 200 = Except.ok true := by
      unfold processExists
      rw [h2]
    have e3 : processExists kill 300 = Except.ok false := by
      unfold processExists
      rw [h3]
    rw [hstep, hfl]
    unfold countFromLines
    rw [hpids]
    simp [countPids, e1, e2, e3]
  have hfmt : (statusBarFormat ((2 : Nat) : Int) 3 (3 - ((2 : Nat) : Int))
      (Int.ofNat 1) 3).data =
      (" [ Instances: 2/3 running, 1 stopped | Watching: Instance 1 " ++
        "| Keys: 1-3 switch, q quit ] ").data := by decide
  refine ⟨hgen, hcr, ?_⟩
  rw [hgen fs pf kill 3 1 width 2 hcr, hfmt]
  exact congrArg Except.ok (List.take_of_length_le (by
    have hl : ((" [ Instances: 2/3 running, 1 stopped | Watching: Instance 1 " ++
        "| Keys: 1-3 switch, q quit ] ").data).length = 89 := by decide
    omega))

/-- Witness for C3: the concrete pid file and probe oracle on a 100-column
screen render exactly the expected status line. -/
theorem statusBarExact_witness :
    countRunning fsPids "pids".data killOracle = Except.ok 2 ∧
    drawStatusBarLine fsPids "pids".data killOracle 3 1 100 = Except.ok
      (" [ Instances: 2/3 running, 1 stopped | Watching: Instance 1 " ++
        "| Keys: 1-3 switch, q quit ] ").data := by
  obtain ⟨-, hA, hB⟩ := statusBarExact fsPids "pids".data killOracle 100
    (by decide) (by decide) (by decide) (by decide) (by decide) (by decide)
  exact ⟨hA, hB⟩

end LogViewer
